import Mathlib

/-!
Verification of the task lifecycle manager of `tools/server/task_manager.py`
(plus the async façade branch of `tools/server/views.py`).

The Python code is shallowly embedded:

* `TaskStatus`, `AsyncTask`, `TaskManager` mirror the classes of
  `task_manager.py`; the registry dict becomes an association list in
  insertion order, timestamps become `Int`, the `threading.Event`
  cancellation flag becomes a `Bool` field.
* The worker closure `run_task` of `TaskManager.start_task` becomes a
  small-step machine (`workerStep` over `SysState`), one atomic step per
  field assignment or check of the source, so that interleavings with the
  cancellation path (`Step.cancel`) can be analysed.  The injected
  inference generator is modelled by its emitted sequence (`InferEvent`),
  and artifact serialization failures by `writeErr`.
* `cleanup_old_tasks` is embedded with an explicit file-system model:
  the list of on-disk paths plus the set of paths whose `os.unlink`
  raises.
-/

/-- Mirror of `ServeTTSRequest` restricted to the fields the task manager
reads (`text` via the façade's length check, `format` for the artifact
name).  The remaining payload is opaque to the manager. -/
structure ServeTTSRequest where
  text : String
  format : String
deriving DecidableEq

/-- Mirror of `TaskStatus` (task_manager.py lines 21-27). -/
inductive TaskStatus where
  | pending
  | running
  | completed
  | failed
  | cancelled
deriving DecidableEq

/-- The wire string of each status (the Python enum is a `str` enum). -/
def TaskStatus.value : TaskStatus → String
  | .pending => "pending"
  | .running => "running"
  | .completed => "completed"
  | .failed => "failed"
  | .cancelled => "cancelled"

/-- Mirror of `AsyncTask.__init__` fields (task_manager.py lines 33-43).
The `threading.Event` named `cancelled` becomes a `Bool`; the `thread`
handle is not part of the observable record. -/
structure AsyncTask where
  step_id : String
  request : ServeTTSRequest
  status : TaskStatus
  created_at : Int
  started_at : Option Int
  completed_at : Option Int
  error_message : Option String
  result_path : Option String
  cancelled : Bool
deriving DecidableEq

/-- `AsyncTask(step_id, request)` constructor state (lines 33-43). -/
def AsyncTask.init (step_id : String) (request : ServeTTSRequest) (now : Int) : AsyncTask :=
  { step_id := step_id
    request := request
    status := .pending
    created_at := now
    started_at := none
    completed_at := none
    error_message := none
    result_path := none
    cancelled := false }

/-- Mirror of `AsyncTask.cancel` (lines 45-51): set the event, then force
`status = CANCELLED` when the current status is `PENDING` or `RUNNING`. -/
def AsyncTask.cancel (t : AsyncTask) : AsyncTask :=
  let t1 := { t with cancelled := true }
  if t1.status = .pending then { t1 with status := .cancelled }
  else if t1.status = .running then { t1 with status := .cancelled }
  else t1

/-- Ordered-dict lookup (`self.tasks.get(step_id)`). -/
def lookupTask : List (String × AsyncTask) → String → Option AsyncTask
  | [], _ => none
  | p :: rest, id => if p.1 = id then some p.2 else lookupTask rest id

/-- Mirror of `TaskManager` state: the `tasks` dict (insertion-ordered
association list) and the configured `temp_dir`. -/
structure TaskManager where
  tasks : List (String × AsyncTask)
  temp_dir : String
deriving DecidableEq

/-- Mirror of `TaskManager.create_task` (lines 78-96): raise `ValueError`
when the id is present, otherwise insert a fresh `PENDING` record. -/
def TaskManager.create_task (m : TaskManager) (step_id : String)
    (request : ServeTTSRequest) (now : Int) : Except String (TaskManager × AsyncTask) :=
  if (lookupTask m.tasks step_id).isSome then
    .error ("Task with step_id " ++ step_id ++ " already exists")
  else
    let task := AsyncTask.init step_id request now
    .ok ({ m with tasks := m.tasks ++ [(step_id, task)] }, task)

/-- Mirror of `TaskManager.get_task` (lines 98-101). -/
def TaskManager.get_task (m : TaskManager) (step_id : String) : Option AsyncTask :=
  lookupTask m.tasks step_id

/-- Mirror of `TaskManager.cancel_task` (lines 188-205): `False` when the
id is unknown, otherwise `AsyncTask.cancel` on the record and `True`. -/
def TaskManager.cancel_task (m : TaskManager) (step_id : String) : TaskManager × Bool :=
  match lookupTask m.tasks step_id with
  | none => (m, false)
  | some _ =>
    ({ m with tasks := m.tasks.map (fun p => if p.1 = step_id then (p.1, p.2.cancel) else p) },
     true)

/-- Mirror of `TaskManager.cancel_all_tasks` (lines 207-222): cancel every
`PENDING`/`RUNNING` record, return how many were touched. -/
def TaskManager.cancel_all_tasks (m : TaskManager) : TaskManager × Nat :=
  ({ m with tasks := m.tasks.map (fun p =>
      if p.2.status = .pending ∨ p.2.status = .running then (p.1, p.2.cancel) else p) },
   (m.tasks.filter (fun p =>
      decide (p.2.status = .pending ∨ p.2.status = .running))).length)

/-- Mirror of `AsyncGenerateResponse` as built in
`generate_audio_enhanced_async` (views.py). -/
structure AsyncGenerateResponse where
  success : Bool
  message : String
  step_id : String
  status : String
deriving DecidableEq

/-- Mirror of the `/generate_audio_enhanced_async` handler body
(views.py lines 470-533) up to scheduling the worker: length check,
`create_task` with `ValueError` mapped to a 400 response, else a success
response carrying the task's initial status.  The returned `Nat` is the
HTTP status code. -/
def generate_audio_enhanced_async (max_text_length : Int) (m : TaskManager)
    (step_id : String) (req : ServeTTSRequest) (now : Int) :
    TaskManager × AsyncGenerateResponse × Nat :=
  if 0 < max_text_length ∧ max_text_length < (req.text.length : Int) then
    (m,
     { success := false
       message := "Text is too long, max length is " ++ toString max_text_length
       step_id := step_id
       status := "failed" },
     400)
  else
    match m.create_task step_id req now with
    | .error e =>
      (m, { success := false, message := e, step_id := step_id, status := "failed" }, 400)
    | .ok (m1, task) =>
      (m1,
       { success := true
         message := "Task created and started"
         step_id := step_id
         status := task.status.value },
       200)

/-! ### Registry lemmas -/

theorem lookupTask_map_cancel (tasks : List (String × AsyncTask)) (id : String) :
    lookupTask (tasks.map (fun p => if p.1 = id then (p.1, p.2.cancel) else p)) id
      = (lookupTask tasks id).map AsyncTask.cancel := by
  induction tasks with
  | nil => rfl
  | cons p rest ih =>
    by_cases h : p.1 = id
    · simp [lookupTask, h]
    · simp [lookupTask, h, ih]

theorem lookupTask_append_last_isSome (tasks : List (String × AsyncTask))
    (id : String) (t : AsyncTask) :
    (lookupTask (tasks ++ [(id, t)]) id).isSome := by
  induction tasks with
  | nil => simp [lookupTask]
  | cons p rest ih =>
    by_cases h : p.1 = id
    · simp [lookupTask, h]
    · simp [lookupTask, h, ih]

theorem AsyncTask.cancel_of_terminal (t : AsyncTask)
    (ht : t.status = .completed ∨ t.status = .failed ∨ t.status = .cancelled) :
    t.cancel = { t with cancelled := true } := by
  rcases ht with h | h | h <;> simp [AsyncTask.cancel, h]

theorem AsyncTask.cancel_of_running (t : AsyncTask) (ht : t.status = .running) :
    t.cancel = { t with cancelled := true, status := .cancelled } := by
  simp [AsyncTask.cancel, ht]

/-! ### Claim C1 -/

/-- Claim C1, counterexample: on a concrete registry holding one `Running`
job, `cancel_task` synchronously changes the job's status to `Cancelled`,
refuting "sets the cancelRequested flag but does not synchronously change
the job's status" (task_manager.py lines 50-51). -/
theorem cancel_running_changes_status_cex :
    let t : AsyncTask := { AsyncTask.init "job1" ⟨"hi", "wav"⟩ 0 with status := .running }
    let m : TaskManager := { tasks := [("job1", t)], temp_dir := "/tmp" }
    t.status = .running ∧
    (m.cancel_task "job1").2 = true ∧
    (lookupTask (m.cancel_task "job1").1.tasks "job1").map AsyncTask.status
      = some .cancelled := by
  decide

/-- Claim C1 (amended): for every registry job whose status is `Running`,
`cancel_task(id)` returns `true`, sets `cancelRequested`, and also
synchronously sets the status to `Cancelled`; the worker's later terminal
transition may overwrite that value. -/
theorem cancel_running_sync (m : TaskManager) (id : String) (t : AsyncTask)
    (hl : lookupTask m.tasks id = some t) (ht : t.status = .running) :
    (m.cancel_task id).2 = true ∧
    lookupTask (m.cancel_task id).1.tasks id
      = some { t with cancelled := true, status := .cancelled } := by
  unfold TaskManager.cancel_task
  rw [hl]
  refine ⟨rfl, ?_⟩
  simp only [lookupTask_map_cancel, hl, Option.map_some']
  rw [AsyncTask.cancel_of_running t ht]

/-- Claim C1 witness: the amended theorem at a concrete `Running` job. -/
theorem cancel_running_sync_witness :
    let t : AsyncTask := { AsyncTask.init "w1" ⟨"x", "wav"⟩ 5 with status := .running }
    let m : TaskManager := { tasks := [("w1", t)], temp_dir := "/tmp" }
    (m.cancel_task "w1").2 = true ∧
    lookupTask (m.cancel_task "w1").1.tasks "w1"
      = some { t with cancelled := true, status := .cancelled } :=
  cancel_running_sync _ "w1" _ (by decide) (by decide)

/-! ### Claim C9 -/

/-- Claim C9: for a registry job already in a terminal status,
`cancel_task(id)` still returns `true`, only sets the `cancelRequested`
flag, and leaves status, result location and error message unchanged
(task_manager.py lines 45-51, 188-205). -/
theorem cancel_terminal_only_flag (m : TaskManager) (id : String) (t : AsyncTask)
    (hl : lookupTask m.tasks id = some t)
    (ht : t.status = .completed ∨ t.status = .failed ∨ t.status = .cancelled) :
    (m.cancel_task id).2 = true ∧
    lookupTask (m.cancel_task id).1.tasks id = some { t with cancelled := true } := by
  unfold TaskManager.cancel_task
  rw [hl]
  refine ⟨rfl, ?_⟩
  simp only [lookupTask_map_cancel, hl, Option.map_some']
  rw [AsyncTask.cancel_of_terminal t ht]

/-- Claim C9 witness: the theorem at a concrete `Completed` job, showing
the record keeps its status and result location. -/
theorem cancel_terminal_only_flag_witness :
    let t : AsyncTask := { AsyncTask.init "w9" ⟨"x", "wav"⟩ 5 with
      status := .completed, result_path := some "/tmp/w9.wav" }
    let m : TaskManager := { tasks := [("w9", t)], temp_dir := "/tmp" }
    (m.cancel_task "w9").2 = true ∧
    lookupTask (m.cancel_task "w9").1.tasks "w9" = some { t with cancelled := true } :=
  cancel_terminal_only_flag _ "w9" _ (by decide) (by decide)

/-! ### Claim C7 -/

/-- Claim C7: creating a job whose id is already present fails with the
`already exists` `ValueError`; a create that succeeded makes the next
create of the same id fail; and the façade maps the failure to a 400
response while leaving the registry unchanged (task_manager.py lines
78-96, views.py lines 512-522). -/
theorem create_duplicate_fails (m : TaskManager) (id : String)
    (r r' : ServeTTSRequest) (n n' maxLen : Int) :
    ((lookupTask m.tasks id).isSome →
      m.create_task id r n = .error ("Task with step_id " ++ id ++ " already exists")) ∧
    (∀ m1 t, m.create_task id r n = .ok (m1, t) →
      m1.create_task id r' n' = .error ("Task with step_id " ++ id ++ " already exists")) ∧
    ((lookupTask m.tasks id).isSome → ¬(0 < maxLen ∧ maxLen < (r.text.length : Int)) →
      generate_audio_enhanced_async maxLen m id r n =
        (m,
         { success := false
           message := "Task with step_id " ++ id ++ " already exists"
           step_id := id
           status := "failed" },
         400)) := by
  refine ⟨fun h => ?_, fun m1 t h => ?_, fun h hlen => ?_⟩
  · simp [TaskManager.create_task, h]
  · unfold TaskManager.create_task at h
    by_cases hs : (lookupTask m.tasks id).isSome
    · simp [hs] at h
    · rw [if_neg hs] at h
      injection h with h2
      injection h2 with hm ht
      subst hm
      simp [TaskManager.create_task, lookupTask_append_last_isSome]
  · simp [generate_audio_enhanced_async, hlen, TaskManager.create_task, h]

/-- Claim C7 witness: two consecutive creates of id `"dup"` on an empty
registry, the second failing through the façade with a 400. -/
theorem create_duplicate_fails_witness :
    let m0 : TaskManager := { tasks := [], temp_dir := "/tmp" }
    let m1 : TaskManager :=
      { tasks := [("dup", AsyncTask.init "dup" ⟨"hi", "wav"⟩ 3)], temp_dir := "/tmp" }
    m0.create_task "dup" ⟨"hi", "wav"⟩ 3 = .ok (m1, AsyncTask.init "dup" ⟨"hi", "wav"⟩ 3) ∧
    m1.create_task "dup" ⟨"hi", "wav"⟩ 4
      = .error ("Task with step_id " ++ "dup" ++ " already exists") ∧
    generate_audio_enhanced_async 200 m1 "dup" ⟨"hi", "wav"⟩ 4 =
      (m1,
       { success := false
         message := "Task with step_id " ++ "dup" ++ " already exists"
         step_id := "dup"
         status := "failed" },
       400) := by
  refine ⟨by rfl, ?_, ?_⟩
  · exact (create_duplicate_fails _ "dup" ⟨"hi", "wav"⟩ ⟨"hi", "wav"⟩ 4 4 200).1 (by decide)
  · exact (create_duplicate_fails _ "dup" ⟨"hi", "wav"⟩ ⟨"hi", "wav"⟩ 4 4 200).2.2
      (by decide) (by decide)

/-! ### Retention sweeper (`TaskManager.cleanup_old_tasks`, lines 224-253)

The on-disk state is modelled by the list of existing paths plus the set
of paths whose `os.unlink` raises; a raised unlink is caught and logged
(lines 241-244), modelled by a warning string. -/

/-- `age = current_time - task.created_at; age > max_age_seconds`. -/
def isExpired (now max_age : Int) (t : AsyncTask) : Bool :=
  decide (max_age < now - t.created_at)

/-- Lines 240-244: if the record has a `result_path` and the file exists,
try to unlink it; a raising unlink leaves the file and yields a warning. -/
def deleteArtifact (fail : List String) (files : List String) (t : AsyncTask) :
    List String × List String :=
  match t.result_path with
  | some path =>
    if files.contains path then
      if fail.contains path then (files, ["Failed to delete temp file " ++ path])
      else (files.erase path, [])
    else (files, [])
  | none => (files, [])

/-- Result of the sweep loop: remaining files, accumulated warnings, and
the `tasks_to_remove` key list in iteration order. -/
structure SweepResult where
  files : List String
  warnings : List String
  removed : List String
deriving DecidableEq

/-- The `for step_id, task in self.tasks.items()` loop (lines 236-247):
for each expired record delete its artifact and collect its key. -/
def sweepLoop (fail : List String) (now max_age : Int) :
    List (String × AsyncTask) → List String → SweepResult
  | [], files => { files := files, warnings := [], removed := [] }
  | p :: rest, files =>
    if isExpired now max_age p.2 then
      let d := deleteArtifact fail files p.2
      let r := sweepLoop fail now max_age rest d.1
      { files := r.files, warnings := d.2 ++ r.warnings, removed := p.1 :: r.removed }
    else
      sweepLoop fail now max_age rest files

/-- `del self.tasks[step_id]` for one key (ordered-dict delete). -/
def removeKey : List (String × AsyncTask) → String → List (String × AsyncTask)
  | [], _ => []
  | p :: rest, id => if p.1 = id then rest else p :: removeKey rest id

/-- Lines 249-250: delete every collected key from the dict. -/
def removeKeys (tasks : List (String × AsyncTask)) (ids : List String) :
    List (String × AsyncTask) :=
  ids.foldl removeKey tasks

/-- Mirror of `TaskManager.cleanup_old_tasks` (lines 224-253): sweep the
snapshot, then remove the collected records; `cleaned` is the number of
removed records. -/
def TaskManager.cleanup_old_tasks (m : TaskManager) (files fail : List String)
    (now max_age_seconds : Int) : TaskManager × SweepResult × Nat :=
  let r := sweepLoop fail now max_age_seconds m.tasks files
  ({ m with tasks := removeKeys m.tasks r.removed }, r, r.removed.length)

/-! ### Sweep lemmas -/

theorem sweepLoop_removed_eq (fail : List String) (now max_age : Int)
    (tasks : List (String × AsyncTask)) (files : List String) :
    (sweepLoop fail now max_age tasks files).removed
      = (tasks.filter (fun p => isExpired now max_age p.2)).map Prod.fst := by
  induction tasks generalizing files with
  | nil => rfl
  | cons p rest ih =>
    by_cases h : isExpired now max_age p.2
    · simp [sweepLoop, h, List.filter_cons, ih]
    · simp [sweepLoop, h, List.filter_cons, ih]

theorem removeKey_cons_ne (p : String × AsyncTask) (rest : List (String × AsyncTask))
    (id : String) (h : ¬p.1 = id) :
    removeKey (p :: rest) id = p :: removeKey rest id := by
  simp [removeKey, h]

theorem removeKeys_cons_notMem (p : String × AsyncTask)
    (rest : List (String × AsyncTask)) (ids : List String) (h : p.1 ∉ ids) :
    removeKeys (p :: rest) ids = p :: removeKeys rest ids := by
  induction ids generalizing rest with
  | nil => rfl
  | cons i ids ih =>
    have hne : ¬p.1 = i := fun hc => h (hc ▸ List.mem_cons_self i ids)
    have hnotm : p.1 ∉ ids := fun hc => h (List.mem_cons_of_mem i hc)
    simp only [removeKeys, List.foldl_cons, removeKey_cons_ne p rest i hne]
    exact ih _ hnotm

theorem removeKeys_filter_keys (tasks : List (String × AsyncTask))
    (q : String × AsyncTask → Bool) (hk : (tasks.map Prod.fst).Nodup) :
    removeKeys tasks ((tasks.filter q).map Prod.fst)
      = tasks.filter (fun p => !(q p)) := by
  induction tasks with
  | nil => rfl
  | cons p rest ih =>
    simp only [List.map_cons, List.nodup_cons] at hk
    obtain ⟨hp, hrest⟩ := hk
    by_cases h : q p
    · have hmap : ((p :: rest).filter q).map Prod.fst
          = p.1 :: (rest.filter q).map Prod.fst := by
        simp [List.filter_cons, h]
      rw [hmap]
      show removeKeys (removeKey (p :: rest) p.1) ((rest.filter q).map Prod.fst)
        = (p :: rest).filter (fun x => !(q x))
      simp only [removeKey, if_pos rfl]
      have hfil : (p :: rest).filter (fun x => !(q x))
          = rest.filter (fun x => !(q x)) := by
        simp [List.filter_cons, h]
      rw [hfil]
      exact ih hrest
    · have hmap : ((p :: rest).filter q).map Prod.fst = (rest.filter q).map Prod.fst := by
        simp [List.filter_cons, h]
      rw [hmap]
      have hnotm : p.1 ∉ (rest.filter q).map Prod.fst := by
        intro hc
        obtain ⟨x, hx1, hx2⟩ := List.mem_map.mp hc
        exact hp (hx2 ▸ List.mem_map_of_mem Prod.fst (List.mem_of_mem_filter hx1))
      rw [removeKeys_cons_notMem p rest _ hnotm]
      have hfil : (p :: rest).filter (fun x => !(q x))
          = p :: rest.filter (fun x => !(q x)) := by
        simp [List.filter_cons, h]
      rw [hfil, ih hrest]

theorem contains_eq_true_of_mem {l : List String} {a : String} (h : a ∈ l) :
    l.contains a = true := by
  simpa [List.contains, List.elem_eq_mem] using h

theorem mem_of_contains_eq_true {l : List String} {a : String}
    (h : l.contains a = true) : a ∈ l := by
  simpa [List.contains, List.elem_eq_mem] using h

theorem deleteArtifact_files_sublist (fail files : List String) (t : AsyncTask) :
    (deleteArtifact fail files t).1.Sublist files := by
  unfold deleteArtifact
  match t.result_path with
  | none => exact List.Sublist.refl files
  | some path =>
    by_cases h1 : files.contains path
    · by_cases h2 : fail.contains path
      · simp only [h1, h2, if_true, if_pos]
        exact List.Sublist.refl files
      · simp only [h1, if_true, h2, if_false, Bool.false_eq_true, if_neg]
        exact List.erase_sublist path files
    · simp only [h1, Bool.false_eq_true, if_neg, if_false]
      exact List.Sublist.refl files

theorem sweepLoop_files_sublist (fail : List String) (now max_age : Int)
    (tasks : List (String × AsyncTask)) (files : List String) :
    (sweepLoop fail now max_age tasks files).files.Sublist files := by
  induction tasks generalizing files with
  | nil => exact List.Sublist.refl files
  | cons p rest ih =>
    by_cases h : isExpired now max_age p.2
    · simp only [sweepLoop, h, if_true]
      exact ((ih _).trans (deleteArtifact_files_sublist fail files p.2))
    · simp only [sweepLoop, h, Bool.false_eq_true, if_false]
      exact ih _

theorem deleteArtifact_keeps_failing (fail files : List String) (t : AsyncTask)
    {path : String} (hmem : path ∈ files) (hfail : fail.contains path = true) :
    path ∈ (deleteArtifact fail files t).1 := by
  unfold deleteArtifact
  match t.result_path with
  | none => exact hmem
  | some p' =>
    by_cases h1 : files.contains p'
    · by_cases h2 : fail.contains p'
      · simp only [h1, h2, if_true]
        exact hmem
      · have hne : path ≠ p' := by
          intro hc
          rw [hc] at hfail
          exact h2 hfail
        simp only [h1, if_true, h2, Bool.false_eq_true, if_neg, if_false]
        exact (List.mem_erase_of_ne hne).mpr hmem
    · simp only [h1, Bool.false_eq_true, if_neg, if_false]
      exact hmem

theorem sweepLoop_keeps_failing (fail : List String) (now max_age : Int)
    (tasks : List (String × AsyncTask)) (files : List String)
    {path : String} (hmem : path ∈ files) (hfail : fail.contains path = true) :
    path ∈ (sweepLoop fail now max_age tasks files).files := by
  induction tasks generalizing files with
  | nil => exact hmem
  | cons p rest ih =>
    by_cases h : isExpired now max_age p.2
    · simp only [sweepLoop, h, if_true]
      exact ih _ (deleteArtifact_keeps_failing fail files p.2 hmem hfail)
    · simp only [sweepLoop, h, Bool.false_eq_true, if_false]
      exact ih _ hmem

theorem sweepLoop_warns_on_failure (fail : List String) (now max_age : Int)
    (tasks : List (String × AsyncTask)) (files : List String)
    {id path : String} {t : AsyncTask}
    (hmem : (id, t) ∈ tasks) (hexp : isExpired now max_age t = true)
    (hres : t.result_path = some path)
    (hfile : path ∈ files) (hfail : fail.contains path = true) :
    ("Failed to delete temp file " ++ path)
      ∈ (sweepLoop fail now max_age tasks files).warnings := by
  induction tasks generalizing files with
  | nil => cases hmem
  | cons p rest ih =>
    rcases List.mem_cons.mp hmem with hhead | htail
    · subst hhead
      simp only [sweepLoop, hexp, if_true]
      have hd : deleteArtifact fail files t
          = (files, ["Failed to delete temp file " ++ path]) := by
        unfold deleteArtifact
        rw [hres]
        simp [hfile, mem_of_contains_eq_true hfail]
      rw [hd]
      exact List.mem_append_left _ (List.mem_singleton.mpr rfl)
    · by_cases h : isExpired now max_age p.2
      · simp only [sweepLoop, h, if_true]
        exact List.mem_append_right _
          (ih _ htail (deleteArtifact_keeps_failing fail files p.2 hfile hfail))
      · simp only [sweepLoop, h, Bool.false_eq_true, if_false]
        exact ih _ htail hfile

theorem sweepLoop_deletes (fail : List String) (now max_age : Int)
    (tasks : List (String × AsyncTask)) (files : List String)
    {id path : String} {t : AsyncTask}
    (hnd : files.Nodup) (hmem : (id, t) ∈ tasks)
    (hexp : isExpired now max_age t = true) (hres : t.result_path = some path)
    (hfail : fail.contains path = false) :
    path ∉ (sweepLoop fail now max_age tasks files).files := by
  induction tasks generalizing files with
  | nil => cases hmem
  | cons p rest ih =>
    rcases List.mem_cons.mp hmem with hhead | htail
    · subst hhead
      simp only [sweepLoop, hexp, if_true]
      intro hc
      have hsub := sweepLoop_files_sublist fail now max_age rest (deleteArtifact fail files t).1
      have hmem2 : path ∈ (deleteArtifact fail files t).1 := hsub.subset hc
      unfold deleteArtifact at hmem2
      rw [hres] at hmem2
      by_cases h1 : files.contains path
      · simp only [h1, if_true, hfail, Bool.false_eq_true, if_neg, if_false] at hmem2
        exact hnd.not_mem_erase hmem2
      · simp only [h1, Bool.false_eq_true, if_neg, if_false] at hmem2
        exact h1 (contains_eq_true_of_mem hmem2)
    · by_cases h : isExpired now max_age p.2
      · simp only [sweepLoop, h, if_true]
        exact ih _ ((deleteArtifact_files_sublist fail files p.2).nodup hnd) htail
      · simp only [sweepLoop, h, Bool.false_eq_true, if_false]
        exact ih _ hnd htail

theorem cleanup_tasks_eq (m : TaskManager) (files fail : List String)
    (now max_age : Int) (hk : (m.tasks.map Prod.fst).Nodup) :
    (m.cleanup_old_tasks files fail now max_age).1.tasks
      = m.tasks.filter (fun p => !(isExpired now max_age p.2)) := by
  unfold TaskManager.cleanup_old_tasks
  simp only [sweepLoop_removed_eq]
  exact removeKeys_filter_keys m.tasks (fun p => isExpired now max_age p.2) hk

/-! ### Claim C5 -/

/-- Claim C5, counterexample: a registry holding one job whose `createdAt`
equals the sweep time.  Its age is `0`, which does not strictly exceed
`maxAge = 0` (line 238 uses `age > max_age_seconds`), so `sweep(0)` keeps
the record and the registry is not left empty, refuting "sweep(maxAge=0)
applied to a registry with N jobs removes all N records". -/
theorem sweep_zero_not_empty_cex :
    let t : AsyncTask := AsyncTask.init "fresh" ⟨"x", "wav"⟩ 100
    let m : TaskManager := { tasks := [("fresh", t)], temp_dir := "/tmp" }
    (m.cleanup_old_tasks [] [] 100 0).1.tasks = [("fresh", t)] ∧
    (m.cleanup_old_tasks [] [] 100 0).2.2 = 0 := by
  decide

/-- Claim C5 (amended): `sweep(maxAge)` removes exactly the records whose
age strictly exceeds `maxAge`, regardless of status; `sweep(0)` empties
the registry provided every record was created strictly before `now`; and
each removed record's artifact is deleted when it exists and its unlink
succeeds. -/
theorem sweep_removes_strictly_expired (m : TaskManager) (files fail : List String)
    (now max_age : Int) (hk : (m.tasks.map Prod.fst).Nodup) :
    ((m.cleanup_old_tasks files fail now max_age).1.tasks
      = m.tasks.filter (fun p => !(isExpired now max_age p.2))) ∧
    ((∀ q ∈ m.tasks, q.2.created_at < now) →
      (m.cleanup_old_tasks files fail now 0).1.tasks = []) ∧
    (files.Nodup → ∀ (path id : String) (t : AsyncTask), (id, t) ∈ m.tasks →
      isExpired now max_age t = true → t.result_path = some path →
      fail.contains path = false →
      path ∉ (m.cleanup_old_tasks files fail now max_age).2.1.files) := by
  refine ⟨cleanup_tasks_eq m files fail now max_age hk, fun hall => ?_, ?_⟩
  · rw [cleanup_tasks_eq m files fail now 0 hk]
    rw [List.filter_eq_nil_iff]
    intro q hq
    have := hall q hq
    simp [isExpired]
    omega
  · intro hnd path id t hmem hexp hres hfail
    exact sweepLoop_deletes fail now max_age m.tasks files hnd hmem hexp hres hfail

/-- Registry used by the claim C5 witness: one expired `Completed` job
with an artifact on disk and one recent job. -/
def sweepWitnessMgr : TaskManager :=
  { tasks :=
      [("a", { AsyncTask.init "a" ⟨"x", "wav"⟩ 0 with
                 status := .completed, result_path := some "/tmp/a.wav" }),
       ("b", AsyncTask.init "b" ⟨"y", "wav"⟩ 95)]
    temp_dir := "/tmp" }

/-- Claim C5 witness: the amended theorem on `sweepWitnessMgr` at
`now = 100`: `sweep(10)` removes exactly the old record and deletes its
artifact, and `sweep(0)` empties the registry. -/
theorem sweep_removes_strictly_expired_witness :
    ((sweepWitnessMgr.cleanup_old_tasks ["/tmp/a.wav"] [] 100 10).1.tasks
      = sweepWitnessMgr.tasks.filter (fun p => !(isExpired 100 10 p.2))) ∧
    (sweepWitnessMgr.cleanup_old_tasks ["/tmp/a.wav"] [] 100 0).1.tasks = [] ∧
    "/tmp/a.wav" ∉ (sweepWitnessMgr.cleanup_old_tasks ["/tmp/a.wav"] [] 100 10).2.1.files := by
  refine ⟨(sweep_removes_strictly_expired sweepWitnessMgr ["/tmp/a.wav"] [] 100 10
      (by simp [sweepWitnessMgr])).1, ?_, ?_⟩
  · refine (sweep_removes_strictly_expired sweepWitnessMgr ["/tmp/a.wav"] [] 100 0
      (by simp [sweepWitnessMgr])).2.1 ?_
    intro q hq
    rcases List.mem_cons.mp hq with h | h
    · subst h; decide
    · rcases List.mem_cons.mp h with h2 | h2
      · subst h2; decide
      · cases h2
  · exact (sweep_removes_strictly_expired sweepWitnessMgr ["/tmp/a.wav"] [] 100 10
      (by simp [sweepWitnessMgr])).2.2 (by decide) "/tmp/a.wav" "a"
      { AsyncTask.init "a" ⟨"x", "wav"⟩ 0 with
          status := .completed, result_path := some "/tmp/a.wav" }
      (List.mem_cons_self _ _) (by decide) (by decide) (by decide)

/-! ### Claim C10 -/

/-- Claim C10: during a sweep, a failing artifact unlink for an expired
record is caught and logged (lines 241-244), the record is still removed,
and every other expired record is still processed and removed. -/
theorem sweep_unlink_failure_isolated (m : TaskManager) (files fail : List String)
    (now max_age : Int) (id path : String) (t : AsyncTask)
    (hk : (m.tasks.map Prod.fst).Nodup) (hmem : (id, t) ∈ m.tasks)
    (hexp : isExpired now max_age t = true) (hres : t.result_path = some path)
    (hfile : path ∈ files) (hfail : fail.contains path = true) :
    ("Failed to delete temp file " ++ path)
      ∈ (m.cleanup_old_tasks files fail now max_age).2.1.warnings ∧
    path ∈ (m.cleanup_old_tasks files fail now max_age).2.1.files ∧
    (id, t) ∉ (m.cleanup_old_tasks files fail now max_age).1.tasks ∧
    (∀ q ∈ (m.cleanup_old_tasks files fail now max_age).1.tasks,
      isExpired now max_age q.2 = false) := by
  have htasks := cleanup_tasks_eq m files fail now max_age hk
  refine ⟨?_, ?_, ?_, ?_⟩
  · exact sweepLoop_warns_on_failure fail now max_age m.tasks files hmem hexp hres
      hfile hfail
  · exact sweepLoop_keeps_failing fail now max_age m.tasks files hfile hfail
  · rw [htasks]
    intro hc
    have := (List.mem_filter.mp hc).2
    simp only [hexp, Bool.not_true] at this
    cases this
  · intro q hq
    rw [htasks] at hq
    have := (List.mem_filter.mp hq).2
    simpa using this

/-- Registry used by the claim C10 witness: two expired jobs, the first
with an artifact whose unlink raises. -/
def sweepFailWitnessMgr : TaskManager :=
  { tasks :=
      [("a", { AsyncTask.init "a" ⟨"x", "wav"⟩ 0 with
                 status := .completed, result_path := some "/tmp/a.wav" }),
       ("c", { AsyncTask.init "c" ⟨"y", "wav"⟩ 1 with
                 status := .failed, error_message := some "boom" })]
    temp_dir := "/tmp" }

/-- Claim C10 witness: on `sweepFailWitnessMgr` with `/tmp/a.wav` present
but failing to unlink, the warning is logged, the file survives, and both
expired records are removed anyway. -/
theorem sweep_unlink_failure_isolated_witness :
    ("Failed to delete temp file " ++ "/tmp/a.wav")
      ∈ (sweepFailWitnessMgr.cleanup_old_tasks ["/tmp/a.wav"] ["/tmp/a.wav"]
          100 10).2.1.warnings ∧
    "/tmp/a.wav" ∈ (sweepFailWitnessMgr.cleanup_old_tasks ["/tmp/a.wav"] ["/tmp/a.wav"]
          100 10).2.1.files ∧
    ("a", { AsyncTask.init "a" ⟨"x", "wav"⟩ 0 with
              status := .completed, result_path := some "/tmp/a.wav" })
      ∉ (sweepFailWitnessMgr.cleanup_old_tasks ["/tmp/a.wav"] ["/tmp/a.wav"]
          100 10).1.tasks ∧
    (∀ q ∈ (sweepFailWitnessMgr.cleanup_old_tasks ["/tmp/a.wav"] ["/tmp/a.wav"]
          100 10).1.tasks, isExpired 100 10 q.2 = false) :=
  sweep_unlink_failure_isolated sweepFailWitnessMgr ["/tmp/a.wav"] ["/tmp/a.wav"]
    100 10 "a" "/tmp/a.wav"
    { AsyncTask.init "a" ⟨"x", "wav"⟩ 0 with
        status := .completed, result_path := some "/tmp/a.wav" }
    (by simp [sweepFailWitnessMgr]) (List.mem_cons_self _ _) (by decide) (by decide)
    (by decide) (by decide)

/-! ### Worker small-step machine (`TaskManager.start_task.run_task`, lines 115-183)

The worker thread is embedded as a deterministic small-step machine with
one atomic step per field assignment or check of `run_task`; the
cancellation path may interleave arbitrarily (`Step.cancel`).  The
injected inference generator is modelled by the sequence of values it
yields: opaque byte segments, at most one final numpy array (carrying an
abstract payload), or a raised exception. -/

/-- One value pulled from `inference(task.request, engine)`. -/
inductive InferEvent where
  | segment
  | final (audio : Nat)
  | raiseErr (msg : String)
deriving DecidableEq

/-- Program counter of `run_task`, naming the next atomic action.

* `setRunning`/`setStartedAt`: lines 117-118;
* `checkEarly`/`earlyCancel`: lines 121-123;
* `loopPull`: pull the next generator item (line 131), which may raise;
* `loopBody e`: the loop body for item `e`: checkpoint test (line 133)
  then the `isinstance` dispatch (lines 146-150);
* `cpCancel`: checkpoint cancellation (lines 134-141): set `CANCELLED`,
  delete any partial artifact, return;
* `afterLoop`: the `audio_data is None` test (line 152);
* `write a`: serialize and write the artifact (lines 156-168), which may
  raise;
* `setResultPath`/`setCompleted`/`setCompletedAt`: lines 170-172;
* `exc msg`: entering the `except` block with message `msg` (line 180);
* `setErrMsg msg`/`setFailedAt`: lines 181-182;
* `done`: the thread has returned. -/
inductive WorkerPC where
  | setRunning
  | setStartedAt
  | checkEarly
  | earlyCancel
  | loopPull
  | loopBody (e : InferEvent)
  | cpCancel
  | afterLoop
  | write (audio : Nat)
  | setResultPath
  | setCompleted
  | setCompletedAt
  | exc (msg : String)
  | setErrMsg (msg : String)
  | setFailedAt
  | done
deriving DecidableEq

/-- State of one job's worker together with its environment: the task
record, the worker's program counter, the generator output not yet
pulled, the local `audio_data`, the files on disk, whether `sf.write`
plus the file write would raise (and with which message), the manager's
`temp_dir`, and the clock. -/
structure SysState where
  task : AsyncTask
  pc : WorkerPC
  evs : List InferEvent
  audio : Option Nat
  files : List String
  writeErr : Option String
  temp_dir : String
  time : Int
deriving DecidableEq

/-- `result_path = self.temp_dir / f"{task.step_id}.{task.request.format}"`
(lines 156-157). -/
def resultFile (s : SysState) : String :=
  s.temp_dir ++ "/" ++ s.task.step_id ++ "." ++ s.task.request.format

/-- One atomic worker action; `none` once the thread has returned.  Each
step advances the clock by one. -/
def workerStep (s : SysState) : Option SysState :=
  match s.pc with
  | .setRunning =>
    some { s with task := { s.task with status := .running },
                  pc := .setStartedAt, time := s.time + 1 }
  | .setStartedAt =>
    some { s with task := { s.task with started_at := some s.time },
                  pc := .checkEarly, time := s.time + 1 }
  | .checkEarly =>
    if s.task.cancelled then some { s with pc := .earlyCancel, time := s.time + 1 }
    else some { s with pc := .loopPull, time := s.time + 1 }
  | .earlyCancel =>
    some { s with task := { s.task with status := .cancelled },
                  pc := .done, time := s.time + 1 }
  | .loopPull =>
    match s.evs with
    | [] => some { s with pc := .afterLoop, time := s.time + 1 }
    | .raiseErr msg :: rest =>
      some { s with evs := rest, pc := .exc msg, time := s.time + 1 }
    | e :: rest =>
      some { s with evs := rest, pc := .loopBody e, time := s.time + 1 }
  | .loopBody e =>
    if s.task.cancelled then some { s with pc := .cpCancel, time := s.time + 1 }
    else
      match e with
      | .final a => some { s with audio := some a, pc := .afterLoop, time := s.time + 1 }
      | _ => some { s with pc := .loopPull, time := s.time + 1 }
  | .cpCancel =>
    let files1 :=
      match s.task.result_path with
      | some p => if s.files.contains p then s.files.erase p else s.files
      | none => s.files
    some { s with task := { s.task with status := .cancelled },
                  files := files1, pc := .done, time := s.time + 1 }
  | .afterLoop =>
    match s.audio with
    | none => some { s with pc := .exc "No audio generated", time := s.time + 1 }
    | some a => some { s with pc := .write a, time := s.time + 1 }
  | .write _ =>
    match s.writeErr with
    | some msg => some { s with pc := .exc msg, time := s.time + 1 }
    | none =>
      some { s with files := s.files ++ [resultFile s],
                    pc := .setResultPath, time := s.time + 1 }
  | .setResultPath =>
    some { s with task := { s.task with result_path := some (resultFile s) },
                  pc := .setCompleted, time := s.time + 1 }
  | .setCompleted =>
    some { s with task := { s.task with status := .completed },
                  pc := .setCompletedAt, time := s.time + 1 }
  | .setCompletedAt =>
    some { s with task := { s.task with completed_at := some s.time },
                  pc := .done, time := s.time + 1 }
  | .exc msg =>
    some { s with task := { s.task with status := .failed },
                  pc := .setErrMsg msg, time := s.time + 1 }
  | .setErrMsg msg =>
    some { s with task := { s.task with error_message := some msg },
                  pc := .setFailedAt, time := s.time + 1 }
  | .setFailedAt =>
    some { s with task := { s.task with completed_at := some s.time },
                  pc := .done, time := s.time + 1 }
  | .done => none

/-- The cancellation path acting on the shared record (`AsyncTask.cancel`
called from `cancel_task`/`cancel_all_tasks` on another thread). -/
def cancelSys (s : SysState) : SysState :=
  { s with task := s.task.cancel }

/-- Interleaved semantics: either the worker performs its next atomic
action, or the cancellation path fires. -/
inductive Step : SysState → SysState → Prop
  | worker {s s' : SysState} (h : workerStep s = some s') : Step s s'
  | cancel {s : SysState} : Step s (cancelSys s)

/-- Reachability under interleaved worker and cancel actions. -/
def Reach (s s' : SysState) : Prop :=
  Relation.ReflTransGen Step s s'

/-- State right after `create_task` + `start_task` scheduled the thread:
a fresh `PENDING` record, the worker about to execute its first
statement, the generator not yet consumed, no artifact on disk. -/
def initSys (step_id : String) (req : ServeTTSRequest) (dir : String)
    (evs : List InferEvent) (werr : Option String) (t0 : Int) : SysState :=
  { task := AsyncTask.init step_id req t0
    pc := .setRunning
    evs := evs
    audio := none
    files := []
    writeErr := werr
    temp_dir := dir
    time := t0 }

/-- Run the worker alone for `n` atomic steps (stalling at `done`). -/
def runW (s : SysState) : Nat → SysState
  | 0 => s
  | n + 1 =>
    match workerStep s with
    | some s' => runW s' n
    | none => s

theorem runW_done {s : SysState} (h : workerStep s = none) (n : Nat) : runW s n = s := by
  cases n with
  | zero => rfl
  | succ n => simp [runW, h]

theorem runW_add (s : SysState) (m n : Nat) : runW s (m + n) = runW (runW s m) n := by
  induction m generalizing s with
  | zero => simp [runW]
  | succ m ih =>
    have hrw : m + 1 + n = (m + n) + 1 := by omega
    rw [hrw]
    cases h : workerStep s with
    | some s' => simp [runW, h, ih]
    | none => simp [runW, h, runW_done h]

theorem reach_runW (s : SysState) (n : Nat) : Reach s (runW s n) := by
  induction n generalizing s with
  | zero => exact Relation.ReflTransGen.refl
  | succ n ih =>
    cases h : workerStep s with
    | some s' =>
      simp only [runW, h]
      exact Relation.ReflTransGen.head (Step.worker h) (ih s')
    | none =>
      simp only [runW, h]
      exact Relation.ReflTransGen.refl

/-! ### Field/status invariant along reachable states -/

/-- Record shape while the worker is between `status = RUNNING` and its
terminal assignment: the cancel path may have forced `CANCELLED`, and
neither `result_path` nor `error_message` is set yet. -/
def midTask (t : AsyncTask) : Prop :=
  (t.status = .running ∨ t.status = .cancelled) ∧
  t.result_path = none ∧ t.error_message = none

/-- Shape of the task record at each worker program counter. -/
def invAt : WorkerPC → AsyncTask → Prop
  | .setRunning, t =>
    (t.status = .pending ∨ t.status = .cancelled) ∧
    t.result_path = none ∧ t.error_message = none
  | .setStartedAt, t => midTask t
  | .checkEarly, t => midTask t
  | .earlyCancel, t => midTask t
  | .loopPull, t => midTask t
  | .loopBody _, t => midTask t
  | .cpCancel, t => midTask t
  | .afterLoop, t => midTask t
  | .write _, t => midTask t
  | .exc _, t => midTask t
  | .setResultPath, t => midTask t
  | .setCompleted, t =>
    (t.status = .running ∨ t.status = .cancelled) ∧
    t.result_path.isSome ∧ t.error_message = none
  | .setCompletedAt, t =>
    t.status = .completed ∧ t.result_path.isSome ∧ t.error_message = none
  | .setErrMsg _, t =>
    t.status = .failed ∧ t.result_path = none ∧ t.error_message = none
  | .setFailedAt, t =>
    t.status = .failed ∧ t.result_path = none ∧ t.error_message.isSome
  | .done, t =>
    (t.status = .cancelled ∧ t.result_path = none ∧ t.error_message = none) ∨
    (t.status = .completed ∧ t.result_path.isSome ∧ t.error_message = none) ∨
    (t.status = .failed ∧ t.result_path = none ∧ t.error_message.isSome)

/-- The invariant preserved by every interleaved step. -/
def SysInv (s : SysState) : Prop := invAt s.pc s.task

theorem AsyncTask.cancel_result_path (t : AsyncTask) :
    t.cancel.result_path = t.result_path := by
  cases ht : t.status <;> simp [AsyncTask.cancel, ht]

theorem AsyncTask.cancel_error_message (t : AsyncTask) :
    t.cancel.error_message = t.error_message := by
  cases ht : t.status <;> simp [AsyncTask.cancel, ht]

theorem AsyncTask.cancel_status (t : AsyncTask) :
    t.cancel.status
      = if t.status = .pending ∨ t.status = .running then .cancelled else t.status := by
  cases ht : t.status <;> simp [AsyncTask.cancel, ht]

theorem AsyncTask.cancel_status_of_terminal (t : AsyncTask)
    (h : ¬(t.status = .pending ∨ t.status = .running)) :
    t.cancel.status = t.status := by
  rw [AsyncTask.cancel_status, if_neg h]

theorem inv_cancel {s : SysState} (h : SysInv s) : SysInv (cancelSys s) := by
  have hpcs : (cancelSys s).pc = s.pc := rfl
  have htask : (cancelSys s).task = s.task.cancel := rfl
  unfold SysInv
  rw [hpcs, htask]
  unfold SysInv at h
  have hrp := AsyncTask.cancel_result_path s.task
  have hem := AsyncTask.cancel_error_message s.task
  have hst := AsyncTask.cancel_status s.task
  cases hpc : s.pc <;> rw [hpc] at h <;> unfold invAt midTask at h ⊢
  case setRunning =>
    rcases h with ⟨hs, h2, h3⟩
    refine ⟨?_, hrp.trans h2, hem.trans h3⟩
    rcases hs with hs | hs <;> rw [hst] <;> simp [hs]
  case setStartedAt | checkEarly | earlyCancel | loopPull | loopBody | cpCancel
    | afterLoop | write | exc | setResultPath =>
    rcases h with ⟨hs, h2, h3⟩
    refine ⟨?_, hrp.trans h2, hem.trans h3⟩
    rcases hs with hs | hs <;> rw [hst] <;> simp [hs]
  case setCompleted =>
    rcases h with ⟨hs, h2, h3⟩
    refine ⟨?_, hrp ▸ h2, hem.trans h3⟩
    rcases hs with hs | hs <;> rw [hst] <;> simp [hs]
  case setCompletedAt =>
    rcases h with ⟨hs, h2, h3⟩
    refine ⟨?_, hrp ▸ h2, hem.trans h3⟩
    rw [AsyncTask.cancel_status_of_terminal s.task (by simp [hs]), hs]
  case setErrMsg =>
    rcases h with ⟨hs, h2, h3⟩
    exact ⟨by rw [AsyncTask.cancel_status_of_terminal s.task (by simp [hs]), hs],
      hrp.trans h2, hem.trans h3⟩
  case setFailedAt =>
    rcases h with ⟨hs, h2, h3⟩
    exact ⟨by rw [AsyncTask.cancel_status_of_terminal s.task (by simp [hs]), hs],
      hrp.trans h2, hem ▸ h3⟩
  case done =>
    rcases h with ⟨hs, h2, h3⟩ | ⟨hs, h2, h3⟩ | ⟨hs, h2, h3⟩
    · exact Or.inl ⟨by rw [AsyncTask.cancel_status_of_terminal s.task (by simp [hs]), hs],
        hrp.trans h2, hem.trans h3⟩
    · exact Or.inr (Or.inl ⟨by rw [AsyncTask.cancel_status_of_terminal s.task (by simp [hs]), hs],
        hrp ▸ h2, hem.trans h3⟩)
    · exact Or.inr (Or.inr ⟨by rw [AsyncTask.cancel_status_of_terminal s.task (by simp [hs]), hs],
        hrp.trans h2, hem ▸ h3⟩)

theorem inv_worker {s s' : SysState} (h : SysInv s) (hw : workerStep s = some s') :
    SysInv s' := by
  unfold SysInv at h
  cases hpc : s.pc <;> rw [hpc] at h <;> simp only [invAt, midTask] at h
  case setRunning =>
    simp only [workerStep, hpc, Option.some.injEq] at hw
    subst hw
    exact ⟨Or.inl rfl, h.2.1, h.2.2⟩
  case setStartedAt =>
    simp only [workerStep, hpc, Option.some.injEq] at hw
    subst hw
    exact h
  case checkEarly =>
    by_cases hc : s.task.cancelled <;>
      simp only [workerStep, hpc, hc, if_true, Bool.false_eq_true, if_false,
        Option.some.injEq] at hw <;> subst hw <;> exact h
  case earlyCancel =>
    simp only [workerStep, hpc, Option.some.injEq] at hw
    subst hw
    exact Or.inl ⟨rfl, h.2.1, h.2.2⟩
  case loopPull =>
    cases hevs : s.evs with
    | nil =>
      simp only [workerStep, hpc, hevs, Option.some.injEq] at hw
      subst hw
      exact h
    | cons e rest =>
      cases e <;> simp only [workerStep, hpc, hevs, Option.some.injEq] at hw <;>
        subst hw <;> exact h
  case loopBody e =>
    by_cases hc : s.task.cancelled
    · simp only [workerStep, hpc, hc, if_true, Option.some.injEq] at hw
      subst hw
      exact h
    · cases e <;>
        simp only [workerStep, hpc, hc, Bool.false_eq_true, if_false,
          Option.some.injEq] at hw <;> subst hw <;> exact h
  case cpCancel =>
    simp only [workerStep, hpc, Option.some.injEq] at hw
    subst hw
    exact Or.inl ⟨rfl, h.2.1, h.2.2⟩
  case afterLoop =>
    cases ha : s.audio <;> simp only [workerStep, hpc, ha, Option.some.injEq] at hw <;>
      subst hw <;> exact h
  case write a =>
    cases hwe : s.writeErr <;>
      simp only [workerStep, hpc, hwe, Option.some.injEq] at hw <;> subst hw <;> exact h
  case setResultPath =>
    simp only [workerStep, hpc, Option.some.injEq] at hw
    subst hw
    exact ⟨h.1, rfl, h.2.2⟩
  case setCompleted =>
    simp only [workerStep, hpc, Option.some.injEq] at hw
    subst hw
    exact ⟨rfl, h.2.1, h.2.2⟩
  case setCompletedAt =>
    simp only [workerStep, hpc, Option.some.injEq] at hw
    subst hw
    exact Or.inr (Or.inl ⟨h.1, h.2.1, h.2.2⟩)
  case exc msg =>
    simp only [workerStep, hpc, Option.some.injEq] at hw
    subst hw
    exact ⟨rfl, h.2.1, h.2.2⟩
  case setErrMsg msg =>
    simp only [workerStep, hpc, Option.some.injEq] at hw
    subst hw
    exact ⟨h.1, h.2.1, rfl⟩
  case setFailedAt =>
    simp only [workerStep, hpc, Option.some.injEq] at hw
    subst hw
    exact Or.inr (Or.inr ⟨h.1, h.2.1, h.2.2⟩)
  case done =>
    simp only [workerStep, hpc] at hw
    exact Option.noConfusion hw

theorem inv_step {s s' : SysState} (h : SysInv s) (hs : Step s s') : SysInv s' := by
  cases hs with
  | worker hw => exact inv_worker h hw
  | cancel => exact inv_cancel h

theorem inv_reach {s s' : SysState} (h : SysInv s) (hr : Reach s s') : SysInv s' := by
  induction hr with
  | refl => exact h
  | tail _ hstep ih => exact inv_step ih hstep

theorem inv_initSys (step_id : String) (req : ServeTTSRequest) (dir : String)
    (evs : List InferEvent) (werr : Option String) (t0 : Int) :
    SysInv (initSys step_id req dir evs werr t0) :=
  ⟨Or.inl rfl, rfl, rfl⟩

/-! ### Claim C2 -/

/-- Claim C2, counterexample: cancelling a freshly created `Pending` job
makes its status the terminal value `Cancelled`, yet the already
scheduled worker's first statement (line 117) then sets it back to
`Running` — a subsequent operation changes a terminal status. -/
theorem terminal_status_changes_cex :
    (cancelSys (initSys "b" ⟨"x", "wav"⟩ "/tmp" [] none 0)).task.status = .cancelled ∧
    (runW (cancelSys (initSys "b" ⟨"x", "wav"⟩ "/tmp" [] none 0)) 1).task.status
      = .running ∧
    Reach (initSys "b" ⟨"x", "wav"⟩ "/tmp" [] none 0)
      (cancelSys (initSys "b" ⟨"x", "wav"⟩ "/tmp" [] none 0)) ∧
    Reach (cancelSys (initSys "b" ⟨"x", "wav"⟩ "/tmp" [] none 0))
      (runW (cancelSys (initSys "b" ⟨"x", "wav"⟩ "/tmp" [] none 0)) 1) :=
  ⟨by decide, by decide, Relation.ReflTransGen.single Step.cancel, reach_runW _ 1⟩

theorem step_done_frame {s s' : SysState} (hinv : SysInv s) (hpc : s.pc = .done)
    (hs : Step s s') :
    s'.task.status = s.task.status ∧ s'.task.result_path = s.task.result_path ∧
    s'.task.error_message = s.task.error_message ∧ s'.pc = .done := by
  cases hs with
  | worker hw =>
    simp only [workerStep, hpc] at hw
    exact Option.noConfusion hw
  | cancel =>
    refine ⟨?_, AsyncTask.cancel_result_path s.task,
      AsyncTask.cancel_error_message s.task, hpc⟩
    unfold SysInv at hinv
    rw [hpc] at hinv
    simp only [invAt] at hinv
    rcases hinv with ⟨hs', -, -⟩ | ⟨hs', -, -⟩ | ⟨hs', -, -⟩ <;>
      exact AsyncTask.cancel_status_of_terminal s.task (by simp [hs'])

/-- Claim C2 (amended): once the job's worker has returned (`pc = done`),
its terminal status, result location and error message are frozen: no
interleaving of further worker or cancel actions changes them.  (Before
the worker has returned, a status made terminal by `cancel()` can still
be overwritten, as the counterexample shows.) -/
theorem terminal_after_done_frame (step_id : String) (req : ServeTTSRequest)
    (dir : String) (evs : List InferEvent) (werr : Option String) (t0 : Int)
    (s s' : SysState) (hr : Reach (initSys step_id req dir evs werr t0) s)
    (hpc : s.pc = .done) (hr' : Reach s s') :
    s'.task.status = s.task.status ∧ s'.task.result_path = s.task.result_path ∧
    s'.task.error_message = s.task.error_message ∧ s'.pc = .done := by
  have hinv : SysInv s := inv_reach (inv_initSys step_id req dir evs werr t0) hr
  induction hr' with
  | refl => exact ⟨rfl, rfl, rfl, hpc⟩
  | tail hab hstep ih =>
    obtain ⟨h1, h2, h3, h4⟩ := ih
    have hinvb := inv_reach hinv hab
    obtain ⟨g1, g2, g3, g4⟩ := step_done_frame hinvb h4 hstep
    exact ⟨g1.trans h1, g2.trans h2, g3.trans h3, g4⟩

/-- Terminated-worker state used by the claim C2 witness: the job is
cancelled before the worker runs, then the worker runs to completion of
its early-cancellation path. -/
def doneStateC2 : SysState :=
  runW (cancelSys (initSys "w2" ⟨"x", "wav"⟩ "/tmp" [] none 0)) 4

/-- Claim C2 witness: after the worker of `doneStateC2` has returned, a
further cancel action leaves status, result location and error message
unchanged. -/
theorem terminal_after_done_frame_witness :
    (cancelSys doneStateC2).task.status = doneStateC2.task.status ∧
    (cancelSys doneStateC2).task.result_path = doneStateC2.task.result_path ∧
    (cancelSys doneStateC2).task.error_message = doneStateC2.task.error_message ∧
    (cancelSys doneStateC2).pc = .done :=
  terminal_after_done_frame "w2" ⟨"x", "wav"⟩ "/tmp" [] none 0 doneStateC2
    (cancelSys doneStateC2)
    (Relation.ReflTransGen.trans (Relation.ReflTransGen.single Step.cancel)
      (reach_runW _ 4))
    (by decide) (Relation.ReflTransGen.single Step.cancel)

/-! ### Claim C3 -/

/-- Claim C3, counterexample: a job cancelled before its worker's first
statement (flag set, worker at its first instruction) is nevertheless
driven through `status = Running` and gets `startedAt` set, refuting "the
status never passes through Running and startedAt remains unset"
(run_task sets both before the first flag check, lines 117-121). -/
theorem worker_start_cancelled_cex :
    (cancelSys (initSys "c" ⟨"x", "wav"⟩ "/tmp" [] none 0)).task.cancelled = true ∧
    (cancelSys (initSys "c" ⟨"x", "wav"⟩ "/tmp" [] none 0)).pc = .setRunning ∧
    (runW (cancelSys (initSys "c" ⟨"x", "wav"⟩ "/tmp" [] none 0)) 1).task.status
      = .running ∧
    (runW (cancelSys (initSys "c" ⟨"x", "wav"⟩ "/tmp" [] none 0)) 2).task.started_at
      = some 1 := by
  refine ⟨by decide, by decide, by decide, by decide⟩

/-- Claim C3 (amended): when the cancel flag is already set as the worker
starts, the worker first sets `status = Running` and `startedAt`, then
observes the flag at its first check, sets `status = Cancelled` and
returns without pulling anything from the inference generator and without
writing an artifact. -/
theorem worker_start_cancelled_path (s : SysState) (hpc : s.pc = .setRunning)
    (hc : s.task.cancelled = true) :
    (runW s 4).pc = .done ∧ (runW s 4).task.status = .cancelled ∧
    (runW s 4).task.started_at = some (s.time + 1) ∧
    (runW s 4).evs = s.evs ∧ (runW s 4).files = s.files ∧
    (runW s 4).task.result_path = s.task.result_path ∧
    (runW s 4).task.error_message = s.task.error_message := by
  simp [runW, workerStep, hpc, hc]

/-- Claim C3 witness: the amended theorem at a concrete cancelled-before
start state. -/
theorem worker_start_cancelled_path_witness :
    (runW (cancelSys (initSys "w3" ⟨"x", "wav"⟩ "/tmp" [.segment] none 0)) 4).pc
      = .done ∧
    (runW (cancelSys (initSys "w3" ⟨"x", "wav"⟩ "/tmp" [.segment] none 0)) 4).task.status
      = .cancelled ∧
    (runW (cancelSys (initSys "w3" ⟨"x", "wav"⟩ "/tmp" [.segment] none
      0)) 4).task.started_at
      = some ((cancelSys (initSys "w3" ⟨"x", "wav"⟩ "/tmp" [.segment] none 0)).time + 1) ∧
    (runW (cancelSys (initSys "w3" ⟨"x", "wav"⟩ "/tmp" [.segment] none 0)) 4).evs
      = (cancelSys (initSys "w3" ⟨"x", "wav"⟩ "/tmp" [.segment] none 0)).evs ∧
    (runW (cancelSys (initSys "w3" ⟨"x", "wav"⟩ "/tmp" [.segment] none 0)) 4).files
      = (cancelSys (initSys "w3" ⟨"x", "wav"⟩ "/tmp" [.segment] none 0)).files ∧
    (runW (cancelSys (initSys "w3" ⟨"x", "wav"⟩ "/tmp" [.segment] none
      0)) 4).task.result_path
      = (cancelSys (initSys "w3" ⟨"x", "wav"⟩ "/tmp" [.segment] none 0)).task.result_path ∧
    (runW (cancelSys (initSys "w3" ⟨"x", "wav"⟩ "/tmp" [.segment] none
      0)) 4).task.error_message
      = (cancelSys (initSys "w3" ⟨"x", "wav"⟩ "/tmp" [.segment] none 0)).task.error_message :=
  worker_start_cancelled_path (cancelSys (initSys "w3" ⟨"x", "wav"⟩ "/tmp"
    [.segment] none 0)) (by decide) (by decide)

/-! ### Claim C4 -/

/-- Claim C4, counterexample: on the success path the worker assigns
`result_path` (line 170) one step before `status = COMPLETED` (line 171),
so a reachable, observable state has a non-empty result location while
the status is still `Running`, refuting the "at every observable point"
equivalence. -/
theorem result_path_before_completed_cex :
    Reach (initSys "a" ⟨"hello", "wav"⟩ "/tmp" [InferEvent.final 1] none 0)
      (runW (initSys "a" ⟨"hello", "wav"⟩ "/tmp" [InferEvent.final 1] none 0) 8) ∧
    (runW (initSys "a" ⟨"hello", "wav"⟩ "/tmp" [InferEvent.final 1] none
      0) 8).task.result_path = some "/tmp/a.wav" ∧
    (runW (initSys "a" ⟨"hello", "wav"⟩ "/tmp" [InferEvent.final 1] none
      0) 8).task.status = .running :=
  ⟨reach_runW _ 8, by decide, by decide⟩

/-- Claim C4 (amended): at every reachable state except the two
one-instruction windows inside the worker's terminal transition (between
the `result_path` and `COMPLETED` assignments, lines 170-171, and between
the `FAILED` and `error_message` assignments, lines 180-181), the result
location is set iff the status is `Completed` and the error message is
set iff the status is `Failed`. -/
theorem result_error_iff_status (step_id : String) (req : ServeTTSRequest)
    (dir : String) (evs : List InferEvent) (werr : Option String) (t0 : Int)
    (s : SysState) (hr : Reach (initSys step_id req dir evs werr t0) s)
    (h1 : s.pc ≠ .setCompleted) (h2 : ∀ msg, s.pc ≠ .setErrMsg msg) :
    (s.task.result_path.isSome ↔ s.task.status = .completed) ∧
    (s.task.error_message.isSome ↔ s.task.status = .failed) := by
  have hinv : SysInv s := inv_reach (inv_initSys step_id req dir evs werr t0) hr
  unfold SysInv at hinv
  cases hpc : s.pc <;> rw [hpc] at hinv <;> simp only [invAt, midTask] at hinv
  case setCompleted => exact absurd hpc h1
  case setErrMsg msg => exact absurd hpc (h2 msg)
  case setRunning =>
    rcases hinv with ⟨hs | hs, g2, g3⟩ <;> simp [hs, g2, g3]
  case setStartedAt | checkEarly | earlyCancel | loopPull | loopBody | cpCancel
    | afterLoop | write | exc | setResultPath =>
    rcases hinv with ⟨hs | hs, g2, g3⟩ <;> simp [hs, g2, g3]
  case setCompletedAt =>
    rcases hinv with ⟨hs, g2, g3⟩
    simp [hs, g2, g3]
  case setFailedAt =>
    rcases hinv with ⟨hs, g2, g3⟩
    simp [hs, g2, g3]
  case done =>
    rcases hinv with ⟨hs, g2, g3⟩ | ⟨hs, g2, g3⟩ | ⟨hs, g2, g3⟩ <;> simp [hs, g2, g3]

/-- Claim C4 witness: the amended equivalence at the freshly started
state (both sides of both equivalences are false there). -/
theorem result_error_iff_status_witness :
    ((initSys "w4" ⟨"x", "wav"⟩ "/tmp" [] none 0).task.result_path.isSome
      ↔ (initSys "w4" ⟨"x", "wav"⟩ "/tmp" [] none 0).task.status = .completed) ∧
    ((initSys "w4" ⟨"x", "wav"⟩ "/tmp" [] none 0).task.error_message.isSome
      ↔ (initSys "w4" ⟨"x", "wav"⟩ "/tmp" [] none 0).task.status = .failed) :=
  result_error_iff_status "w4" ⟨"x", "wav"⟩ "/tmp" [] none 0 _
    Relation.ReflTransGen.refl (by decide) (fun msg => by simp [initSys])

/-! ### Claim C6 -/

/-- Claim C6: an exception raised inside the worker — by the inference
generator while being pulled (line 131) or by artifact serialization
(lines 160-168) — is caught by the worker's `except` block (lines
179-183): the worker still returns (it never propagates, `workerStep` is
total), and the record ends with `status = Failed`, `errorMessage` equal
to the exception's message, and `completedAt` set. -/
theorem worker_exception_contained (s : SysState) (msg : String)
    (h : (s.pc = .loopPull ∧ s.evs.head? = some (.raiseErr msg)) ∨
         (∃ a, s.pc = .write a ∧ s.writeErr = some msg)) :
    (runW s 4).pc = .done ∧ (runW s 4).task.status = .failed ∧
    (runW s 4).task.error_message = some msg ∧
    (runW s 4).task.completed_at = some (s.time + 3) := by
  rcases h with ⟨hpc, hev⟩ | ⟨a, hpc, hwe⟩
  · cases hevs : s.evs with
    | nil => rw [hevs] at hev; cases hev
    | cons e rest =>
      rw [hevs] at hev
      simp only [List.head?_cons, Option.some.injEq] at hev
      subst hev
      refine ⟨by simp [runW, workerStep, hpc, hevs], by simp [runW, workerStep, hpc, hevs],
        by simp [runW, workerStep, hpc, hevs], ?_⟩
      have harith : s.time + 1 + 1 + 1 = s.time + 3 := by omega
      simp [runW, workerStep, hpc, hevs, harith]
  · refine ⟨by simp [runW, workerStep, hpc, hwe], by simp [runW, workerStep, hpc, hwe],
      by simp [runW, workerStep, hpc, hwe], ?_⟩
    have harith : s.time + 1 + 1 + 1 = s.time + 3 := by omega
    simp [runW, workerStep, hpc, hwe, harith]

/-- Claim C6 witness: a worker whose generator raises `"boom"` on the
first pull ends `Failed` with that message and a `completedAt`. -/
theorem worker_exception_contained_witness :
    (runW (runW (initSys "d" ⟨"x", "wav"⟩ "/tmp" [InferEvent.raiseErr "boom"] none 0) 3)
      4).pc = .done ∧
    (runW (runW (initSys "d" ⟨"x", "wav"⟩ "/tmp" [InferEvent.raiseErr "boom"] none 0) 3)
      4).task.status = .failed ∧
    (runW (runW (initSys "d" ⟨"x", "wav"⟩ "/tmp" [InferEvent.raiseErr "boom"] none 0) 3)
      4).task.error_message = some "boom" ∧
    (runW (runW (initSys "d" ⟨"x", "wav"⟩ "/tmp" [InferEvent.raiseErr "boom"] none 0) 3)
      4).task.completed_at
      = some ((runW (initSys "d" ⟨"x", "wav"⟩ "/tmp" [InferEvent.raiseErr "boom"] none 0)
          3).time + 3) :=
  worker_exception_contained
    (runW (initSys "d" ⟨"x", "wav"⟩ "/tmp" [InferEvent.raiseErr "boom"] none 0) 3)
    "boom" (Or.inl ⟨by decide, by decide⟩)

/-! ### Claim C8 -/

/-- Claim C8, counterexample: a job whose generator completes without a
final array ends `Failed`, but with `errorMessage = "No audio generated"`
(the `ValueError` message of line 153), not `"no result produced"`. -/
theorem no_audio_message_cex :
    (runW (initSys "e" ⟨"x", "wav"⟩ "/tmp" [] none 0) 8).task.status = .failed ∧
    (runW (initSys "e" ⟨"x", "wav"⟩ "/tmp" [] none 0) 8).task.error_message
      = some "No audio generated" ∧
    (runW (initSys "e" ⟨"x", "wav"⟩ "/tmp" [] none 0) 8).task.error_message
      ≠ some "no result produced" := by
  refine ⟨by decide, by decide, by decide⟩

theorem runW_segments (k : Nat) : ∀ s : SysState, s.pc = .loopPull →
    s.task.cancelled = false → s.evs = List.replicate k .segment →
    (runW s (2 * k + 1)).pc = .afterLoop ∧
    (runW s (2 * k + 1)).task = s.task ∧
    (runW s (2 * k + 1)).audio = s.audio ∧
    (runW s (2 * k + 1)).files = s.files ∧
    (runW s (2 * k + 1)).writeErr = s.writeErr ∧
    (runW s (2 * k + 1)).temp_dir = s.temp_dir := by
  induction k with
  | zero =>
    intro s hpc hc he
    simp [runW, workerStep, hpc, he]
  | succ k ih =>
    intro s hpc hc he
    have h2 : 2 * (k + 1) + 1 = 2 + (2 * k + 1) := by omega
    rw [h2, runW_add]
    have e2 : runW s 2
        = { s with
            evs := List.replicate k InferEvent.segment
            pc := WorkerPC.loopPull
            time := s.time + 1 + 1 } := by
      simp [runW, workerStep, hpc, he, hc, List.replicate_succ]
    rw [e2]
    exact ih _ rfl hc rfl

/-- Claim C8 (amended): a job whose generator yields only intermediate
segments and completes without ever producing the final merged array (and
which is not cancelled during the run) ends with `status = Failed` and
`errorMessage = "No audio generated"` — not the spec's string
`"no result produced"` — with `completedAt` set. -/
theorem worker_no_final_fails (s : SysState) (k : Nat) (hpc : s.pc = .setRunning)
    (hc : s.task.cancelled = false) (ha : s.audio = none)
    (he : s.evs = List.replicate k .segment) :
    (runW s (2 * k + 8)).pc = .done ∧
    (runW s (2 * k + 8)).task.status = .failed ∧
    (runW s (2 * k + 8)).task.error_message = some "No audio generated" ∧
    (runW s (2 * k + 8)).task.completed_at.isSome = true := by
  have h8 : 2 * k + 8 = 3 + ((2 * k + 1) + 4) := by omega
  rw [h8, runW_add, runW_add]
  have e1 : (runW s 3).pc = .loopPull := by simp [runW, workerStep, hpc, hc]
  have e2 : (runW s 3).task.cancelled = false := by simp [runW, workerStep, hpc, hc]
  have e3 : (runW s 3).evs = List.replicate k .segment := by
    simp [runW, workerStep, hpc, hc, he]
  have e4 : (runW s 3).audio = none := by simp [runW, workerStep, hpc, hc, ha]
  obtain ⟨f1, f2, f3, f4, f5, f6⟩ := runW_segments k (runW s 3) e1 e2 e3
  have g4 : (runW (runW s 3) (2 * k + 1)).audio = none := f3.trans e4
  generalize hgen : runW (runW s 3) (2 * k + 1) = t at f1 g4
  simp [runW, workerStep, f1, g4]

/-- Claim C8 witness: the amended theorem on a generator yielding one
segment and no final array. -/
theorem worker_no_final_fails_witness :
    (runW (initSys "e1" ⟨"x", "wav"⟩ "/tmp" [InferEvent.segment] none 0)
      (2 * 1 + 8)).pc = .done ∧
    (runW (initSys "e1" ⟨"x", "wav"⟩ "/tmp" [InferEvent.segment] none 0)
      (2 * 1 + 8)).task.status = .failed ∧
    (runW (initSys "e1" ⟨"x", "wav"⟩ "/tmp" [InferEvent.segment] none 0)
      (2 * 1 + 8)).task.error_message = some "No audio generated" ∧
    (runW (initSys "e1" ⟨"x", "wav"⟩ "/tmp" [InferEvent.segment] none 0)
      (2 * 1 + 8)).task.completed_at.isSome = true :=
  worker_no_final_fails (initSys "e1" ⟨"x", "wav"⟩ "/tmp" [InferEvent.segment] none 0)
    1 (by decide) (by decide) (by decide) (by decide)
